import Mathlib

/-!
Verification of a two-pass assembler for a 10-bit word machine whose output
uses the base-4 alphabet a=0, b=1, c=2, d=3.  The definitions below are a
shallow embedding of the C sources: convertToBase4.c, symbol_table.c,
first_pass.c, second_pass.c, output_files.c and main.c.  The theorems check
the natural-language specification against these definitions.
-/

namespace Assembler

/-- Constant MEMORY_START from assembler.h: starting memory address for
instructions (decimal 100). -/
def MEMORY_START : Int := 100

/-- Base-4 digit characters used everywhere in the encoder: 0 is rendered
as the character a, 1 as b, 2 as c, 3 as d (the switch in convertToBase4.c). -/
def base4Char (d : Nat) : Char :=
  if d = 0 then 'a' else if d = 1 then 'b' else if d = 2 then 'c' else 'd'

/-- Function convertToBase4 from convertToBase4.c: the value is masked to
10 bits (two's complement; the C computes value &= 0x3FF on a signed int,
which equals the nonnegative remainder modulo 1024) and rendered as exactly
5 base-4 digits, most significant first.  The C loop writes digit
(value >> (2*i)) & 3 at string position 4-i for i = 4,3,2,1,0, so position
k holds v / 4^(4-k) % 4. -/
def convertToBase4 (value : Int) : String :=
  let v : Nat := (value % 1024).toNat
  String.mk [base4Char (v / 256 % 4), base4Char (v / 64 % 4),
             base4Char (v / 16 % 4), base4Char (v / 4 % 4), base4Char (v % 4)]

/-- Core of stripLeadingA from convertToBase4.c: the C loop
while (start is the character a and the next character is not the
terminator) advances, so leading a digits are dropped but the final
character is always kept. -/
def stripACore : List Char → List Char
  | [] => []
  | c :: rest => if c = 'a' ∧ rest ≠ [] then stripACore rest else c :: rest

/-- Function stripLeadingA from convertToBase4.c. -/
def stripLeadingA (s : String) : String := String.mk (stripACore s.data)

/-- Modelled from the spec: the numeric value of one base-4 character,
inverse of the alphabet a=0, b=1, c=2, d=3 (spec section 3). -/
def base4CharVal (c : Char) : Nat :=
  if c = 'a' then 0 else if c = 'b' then 1 else if c = 'c' then 2 else 3

/-- Modelled from the spec: the raw unsigned integer value of a base-4
string, most significant digit first. -/
def decodeBase4Raw (s : String) : Nat :=
  s.data.foldl (fun acc c => acc * 4 + base4CharVal c) 0

/-- Modelled from the spec: sign-extension from 10 bits (spec section 8,
round-trip property). -/
def signExtend10 (v : Nat) : Int := if v ≥ 512 then (v : Int) - 1024 else (v : Int)

/-- Modelled from the spec: decode a 5-digit base-4 rendering back to a
signed integer, sign-extending from 10 bits. -/
def decodeBase4 (s : String) : Int := signExtend10 (decodeBase4Raw s)

/-- Symbol types from assembler.h (SYMBOL_CODE, SYMBOL_DATA,
SYMBOL_EXTERNAL, SYMBOL_ENTRY). -/
inductive SymbolType where
  | code
  | data
  | external
  | entry
deriving DecidableEq, Repr

/-- A symbol-table node from assembler.h: name, address, type and the list
of recorded external-usage addresses (head of the C linked list first). -/
structure Symbol where
  name : String
  address : Int
  type : SymbolType
  external_usages : List Int
deriving DecidableEq, Repr

/-- Function findSymbol from symbol_table.c: linear search, first match by
exact name. -/
def findSymbol : List Symbol → String → Option Symbol
  | [], _ => none
  | s :: rest, nm => if s.name = nm then some s else findSymbol rest nm

/-- The 16 opcode mnemonics recognised by is_opcode in first_pass.c. -/
def opcodes : List String :=
  ["mov", "cmp", "add", "sub", "not", "clr", "lea", "inc", "dec", "jmp", "bne",
   "red", "prn", "jsr", "rts", "stop"]

/-- Function is_opcode from first_pass.c. -/
def is_opcode (s : String) : Bool := opcodes.contains s

/-- Function is_register from first_pass.c: exactly two characters, the
letter r followed by a digit whose value is at most 7 (the C converts the
digit with atoi). -/
def is_register (s : String) : Bool :=
  match s.data with
  | [c0, c1] => c0 == 'r' && c1.isDigit && decide (c1.toNat - 48 ≤ 7)
  | _ => false

/-- Function is_valid_label from first_pass.c: nonempty, at most 30
characters (MAX_SYMBOL_LENGTH is 31 including the terminator), first
character alphabetic, the rest alphanumeric (ASCII, C locale). -/
def is_valid_label (s : String) : Bool :=
  match s.data with
  | [] => false
  | c :: rest => decide (s.data.length ≤ 30) && c.isAlpha && rest.all Char.isAlphanum

/-- Updates the first list entry with the given name, which is the node the
C mutates through the pointer returned by findSymbol. -/
def updateFirst : List Symbol → String → (Symbol → Symbol) → List Symbol
  | [], _, _ => []
  | s :: rest, nm, f => if s.name = nm then f s :: rest else s :: updateFirst rest nm f

/-- Function addSymbol from symbol_table.c.  Returns the new table together
with the error-flag contribution of the call (true when the C sets
g_has_error).  The line-number argument of the C is used only in error
messages and is dropped.  The final fall-through arm of the existing-symbol
case is unreachable (all four types are handled) and mirrors the C falling
through to node creation. -/
def addSymbol (tab : List Symbol) (name : String) (address : Int) (ty : SymbolType) :
    List Symbol × Bool :=
  if is_opcode name || is_register name then (tab, true)
  else if !is_valid_label name then (tab, true)
  else
    match findSymbol tab name with
    | some existing =>
      match ty with
      | SymbolType.external =>
        if existing.type = SymbolType.code ∨ existing.type = SymbolType.data then (tab, true)
        else if existing.type = SymbolType.entry then (tab, true)
        else (tab, false)
      | SymbolType.entry =>
        if existing.type = SymbolType.external then (tab, true)
        else (updateFirst tab name (fun s => { s with type := SymbolType.entry }), false)
      | _ =>
        if existing.type = SymbolType.code ∨ existing.type = SymbolType.data then (tab, true)
        else if existing.type = SymbolType.external then (tab, true)
        else if existing.type = SymbolType.entry then
          if existing.address = 0 then
            (updateFirst tab name (fun s => { s with address := address }), false)
          else (tab, true)
        else (⟨name, address, ty, []⟩ :: tab, false)
    | none => (⟨name, address, ty, []⟩ :: tab, false)

/-- Function updateDataSymbolsAddresses from symbol_table.c: every data
symbol gains icf; every entry symbol whose address is still below
MEMORY_START also gains icf. -/
def updateDataSymbolsAddresses (tab : List Symbol) (icf : Int) : List Symbol :=
  tab.map (fun s =>
    if s.type = SymbolType.data then { s with address := s.address + icf }
    else if s.type = SymbolType.entry ∧ s.address < MEMORY_START then
      { s with address := s.address + icf }
    else s)

/-- Function addExternalUsage from symbol_table.c: prepends the usage
address to the head of the symbol's usage list; raises the error flag when
the symbol is not external. -/
def addExternalUsage (sym : Symbol) (address : Int) : Symbol × Bool :=
  if sym.type ≠ SymbolType.external then (sym, true)
  else ({ sym with external_usages := address :: sym.external_usages }, false)

/-- Table-level form of addExternalUsage: the C mutates the node found by
findSymbol, i.e. the first entry with that name. -/
def addExternalUsageTab (tab : List Symbol) (nm : String) (address : Int) : List Symbol :=
  updateFirst tab nm (fun s => (addExternalUsage s address).1)

/-- Records a sequence of usage addresses on a symbol, in source order, by
repeated calls to addExternalUsage (second-pass behaviour). -/
def recordUsages (sym : Symbol) (recs : List Int) : Symbol :=
  recs.foldl (fun s a => (addExternalUsage s a).1) sym

/-- The lines written by writeExternalsFile in output_files.c: walk the
symbol table, and for every external symbol walk its usage list from the
head, one line per usage. -/
def writeExternalsLines (tab : List Symbol) : List String :=
  (tab.map (fun s =>
    if s.type = SymbolType.external then
      s.external_usages.map (fun a => s.name ++ " " ++ convertToBase4 a)
    else [])).flatten

/-- Condition under which writeEntriesFile (output_files.c) creates the
entries file: some entry symbol with address at least MEMORY_START. -/
def entriesFilePresent (tab : List Symbol) : Bool :=
  tab.any (fun s => decide (s.type = SymbolType.entry ∧ s.address ≥ MEMORY_START))

/-- Condition under which writeExternalsFile (output_files.c) creates the
externals file: some external symbol with a nonempty usage list. -/
def externalsFilePresent (tab : List Symbol) : Bool :=
  tab.any (fun s => decide (s.type = SymbolType.external ∧ s.external_usages ≠ []))

/-- The three output artefacts of a unit. -/
inductive Artefact where
  | ob
  | ent
  | ext
deriving DecidableEq, Repr

/-- The output phase of main (main.c lines 159-170): when the unit's error
flag is set no output files are generated; otherwise writeObjectFile always
creates the object file and the entries/externals writers create their
files only when they have content. -/
def mainOutputPhase (g_has_error : Bool) (tab : List Symbol) : List Artefact :=
  if g_has_error then []
  else
    [Artefact.ob]
      ++ (if entriesFilePresent tab then [Artefact.ent] else [])
      ++ (if externalsFilePresent tab then [Artefact.ext] else [])

/-- Characters treated as whitespace by isspace in the C locale. -/
def isSpaceChar (c : Char) : Bool :=
  c == ' ' || c == '\t' || c == '\n' || c == '\x0b' || c == '\x0c' || c == '\r'

/-- Function trim_whitespace from second_pass.c: drop leading and trailing
whitespace in place. -/
def trim_whitespace (s : String) : String :=
  String.mk (((s.data.dropWhile isSpaceChar).reverse.dropWhile isSpaceChar).reverse)

/-- Decimal value of a digit string, most significant first. -/
def digitsToNat (cs : List Char) : Nat :=
  cs.foldl (fun a c => a * 10 + (c.toNat - 48)) 0

/-- Reads a maximal nonempty run of decimal digits. -/
def takeDigitsNat (cs : List Char) : Option (Nat × List Char) :=
  let ds := cs.takeWhile Char.isDigit
  if ds = [] then none else some (digitsToNat ds, cs.dropWhile Char.isDigit)

/-- Behaviour of the C library atoi on an operand tail: skip whitespace and
an optional sign, then read leading digits (0 when there are none). -/
def atoiInt (cs : List Char) : Int :=
  let cs1 := cs.dropWhile isSpaceChar
  match cs1 with
  | '-' :: rest => -(digitsToNat (rest.takeWhile Char.isDigit) : Int)
  | '+' :: rest => (digitsToNat (rest.takeWhile Char.isDigit) : Int)
  | _ => (digitsToNat (cs1.takeWhile Char.isDigit) : Int)

/-- One %d conversion of sscanf: skip whitespace, optional sign, at least
one digit; returns the value and the unconsumed rest. -/
def parseIntScan (cs : List Char) : Option (Int × List Char) :=
  let cs1 := cs.dropWhile isSpaceChar
  match cs1 with
  | '-' :: rest =>
    match takeDigitsNat rest with
    | some (n, r) => some (-(n : Int), r)
    | none => none
  | '+' :: rest =>
    match takeDigitsNat rest with
    | some (n, r) => some ((n : Int), r)
    | none => none
  | _ =>
    match takeDigitsNat cs1 with
    | some (n, r) => some ((n : Int), r)
    | none => none

/-- The register part of the matrix-operand sscanf pattern used by
first_pass.c and second_pass.c: a nonempty prefix without an opening
bracket, then bracket r number bracket bracket r number.  sscanf reports
two conversions as soon as the second number is read, so the closing
bracket after it is not required. -/
def parseMatrixRegs (cs : List Char) : Option (Int × Int) :=
  if cs.takeWhile (fun c => c != '[') = [] then none
  else
    match cs.dropWhile (fun c => c != '[') with
    | '[' :: 'r' :: t =>
      match parseIntScan t with
      | some (n1, t1) =>
        match t1 with
        | ']' :: '[' :: 'r' :: t2 =>
          match parseIntScan t2 with
          | some (n2, _) => some (n1, n2)
          | none => none
        | _ => none
      | none => none
    | _ => none

/-- True when the first character of the string is the given one (the C
reads s[0]). -/
def firstCharIs (s : String) (c : Char) : Bool :=
  match s.data with
  | c0 :: _ => c0 == c
  | [] => false

/-- Function calculate_instruction_length from first_pass.c.  Returns -1 on
error.  The C classifies each operand (immediate, matrix, register, direct,
in that order), gives two registers a shared word, and rejects lengths
above 5. -/
def calculate_instruction_length (opcode : String) (op1 op2 : String) : Int :=
  let num_operands_parsed : Nat :=
    (if op1 ≠ "" then 1 else 0) + (if op2 ≠ "" then 1 else 0)
  let expected_operands : Int :=
    if opcode = "rts" ∨ opcode = "stop" then 0
    else if opcode = "not" ∨ opcode = "clr" ∨ opcode = "inc" ∨ opcode = "dec" ∨
            opcode = "jmp" ∨ opcode = "bne" ∨ opcode = "jsr" ∨ opcode = "red" ∨
            opcode = "prn" then 1
    else if opcode = "mov" ∨ opcode = "cmp" ∨ opcode = "add" ∨ opcode = "sub" ∨
            opcode = "lea" then 2
    else -1
  if expected_operands = -1 ∨ expected_operands ≠ (num_operands_parsed : Int) then -1
  else
    let op1Info : Option (Bool × Nat) :=
      if num_operands_parsed ≥ 1 then
        if firstCharIs op1 '#' then some (false, 1)
        else if op1.data.contains '[' then
          match parseMatrixRegs op1.data with
          | some _ => some (false, 2)
          | none => none
        else if is_register op1 then some (true, 1)
        else some (false, 1)
      else some (false, 0)
    let op2Info : Option (Bool × Nat) :=
      if num_operands_parsed = 2 then
        if firstCharIs op2 '#' then some (false, 1)
        else if op2.data.contains '[' then
          match parseMatrixRegs op2.data with
          | some _ => some (false, 2)
          | none => none
        else if is_register op2 then some (true, 1)
        else some (false, 1)
      else some (false, 0)
    match op1Info, op2Info with
    | some (r1, w1), some (r2, w2) =>
      if r1 && r2 then 2
      else if 1 + w1 + w2 > 5 then -1
      else ((1 + w1 + w2 : Nat) : Int)
    | _, _ => -1

/-- Function get_opcode_base4 from second_pass.c: two base-4 digits per
mnemonic, the string aaaa for an unknown opcode. -/
def get_opcode_base4 (s : String) : String :=
  if s = "mov" then "aa" else if s = "cmp" then "ab" else if s = "add" then "ac"
  else if s = "sub" then "ad" else if s = "not" then "ba" else if s = "clr" then "bb"
  else if s = "lea" then "bc" else if s = "inc" then "bd" else if s = "dec" then "ca"
  else if s = "jmp" then "cb" else if s = "bne" then "cc" else if s = "red" then "cd"
  else if s = "prn" then "da" else if s = "jsr" then "db" else if s = "rts" then "dc"
  else if s = "stop" then "dd" else "aaaa"

/-- Function get_addressing_mode_base4 from second_pass.c (the C returns a
one-character string and callers use only its first character): empty or
leading hash gives immediate a, a register gives d, a string containing an
opening bracket gives matrix c, anything else is a direct label b. -/
def get_addressing_mode_base4 (s : String) : Char :=
  match s.data with
  | [] => 'a'
  | c :: _ =>
    if c = '#' then 'a'
    else if is_register s then 'd'
    else if s.data.contains '[' then 'c'
    else 'b'

/-- Function get_register_base4 from second_pass.c: the register number
rendered as two base-4 digits, aa for a non-register. -/
def get_register_base4 (s : String) : String :=
  if !is_register s then "aa"
  else
    match s.data with
    | [_, c1] =>
      let n := c1.toNat - 48
      String.mk [base4Char (n / 4), base4Char (n % 4)]
    | _ => "aa"

/-- Function encode_matrix_registers from second_pass.c, including the two
hard-coded branches for the register pairs (2,7) and (3,3); the regular
branch packs the row register into bits 9-6 and the column register into
bits 5-2 with ARE bits 00 and renders 5 base-4 digits, most significant
first. -/
def encode_matrix_registers (row_reg col_reg : Int) : String :=
  if row_reg = 2 ∧ col_reg = 7 then "cabbc"
  else if row_reg = 3 ∧ col_reg = 3 then "adada"
  else
    let encoded : Nat := ((row_reg % 16).toNat <<< 6) ||| ((col_reg % 16).toNat <<< 2)
    String.mk [base4Char (encoded / 256 % 4), base4Char (encoded / 64 % 4),
               base4Char (encoded / 16 % 4), base4Char (encoded / 4 % 4),
               base4Char (encoded % 4)]

/-- The legal_modes table from first_pass.c: per opcode number, the legal
source and destination mode characters; X means no operand in that slot. -/
def legal_modes (opcode_num : Nat) : String × String :=
  match opcode_num with
  | 0 => ("abcd", "bcd")
  | 1 => ("abcd", "abcd")
  | 2 => ("abcd", "bcd")
  | 3 => ("abcd", "bcd")
  | 4 => ("X", "bcd")
  | 5 => ("X", "bcd")
  | 6 => ("bc", "bcd")
  | 7 => ("X", "bcd")
  | 8 => ("X", "bcd")
  | 9 => ("X", "bc")
  | 10 => ("X", "bc")
  | 11 => ("X", "bcd")
  | 12 => ("X", "abcd")
  | 13 => ("X", "bc")
  | 14 => ("X", "X")
  | _ => ("X", "X")

/-- The opcode-to-number mapping of validate_instruction_operands
(first_pass.c); -1 for an unknown opcode. -/
def opcode_num_of (opcode : String) : Int :=
  if opcode = "mov" then 0 else if opcode = "cmp" then 1 else if opcode = "add" then 2
  else if opcode = "sub" then 3 else if opcode = "not" then 4 else if opcode = "clr" then 5
  else if opcode = "lea" then 6 else if opcode = "inc" then 7 else if opcode = "dec" then 8
  else if opcode = "jmp" then 9 else if opcode = "bne" then 10 else if opcode = "red" then 11
  else if opcode = "prn" then 12 else if opcode = "jsr" then 13 else if opcode = "rts" then 14
  else if opcode = "stop" then 15 else -1

/-- Function validate_instruction_operands from first_pass.c: checks the
operand count expected from the legal_modes table, then the legality of the
source mode (two-operand case) and of the destination mode; for a single
operand the first operand's mode is checked against the destination column
(the C comment: for single operand, it is treated as destination).  The
in-bounds check on the opcode number is always true and omitted. -/
def validate_instruction_operands (opcode op1 op2 : String) (num_ops : Nat) : Bool :=
  let src := get_addressing_mode_base4 op1
  let dst := get_addressing_mode_base4 op2
  let k := opcode_num_of opcode
  if k = -1 then false
  else
    let modes := legal_modes k.toNat
    let expected : Nat := (if modes.1 ≠ "X" then 1 else 0) + (if modes.2 ≠ "X" then 1 else 0)
    if expected ≠ num_ops then false
    else
      let srcOk := if num_ops = 2 then modes.1.data.contains src else true
      let dstOk :=
        if num_ops = 2 then modes.2.data.contains dst
        else if num_ops = 1 then modes.2.data.contains src
        else true
      srcOk && dstOk

/-- An instruction record (assembler.h struct Instruction) as it reaches the
second pass: address, opcode, operand count, raw operand strings and length
computed in pass 1. -/
structure Instr where
  address : Int
  opcode : String
  num_operands : Nat
  operand1 : String
  operand2 : String
  instruction_length : Int
deriving DecidableEq, Repr

/-- Result of encoding one instruction: error-flag contribution, the opcode
word (empty when the encoder bails out before building it), the operand
words (num_operand_words stays 0 on the C's error returns, so no operand
words are observable then) and the symbol table with any recorded external
usages. -/
structure EncResult where
  err : Bool
  machineWord : String
  operandWords : List String
  symTab : List Symbol
deriving DecidableEq, Repr

/-- First four characters of a rendered word followed by the ARE character:
the C sprintf with format %.4s%c used for immediate and label words. -/
def wordWithARE (base4val : String) (are : Char) : String :=
  String.mk (base4val.data.take 4 ++ [are])

/-- The label part of the matrix-operand sscanf (everything before the first
opening bracket); empty means the conversion failed. -/
def matrix_label (cs : List Char) : List Char := cs.takeWhile (fun c => c != '[')

/-- The label or matrix operand handling of encode_instruction_words
(duplicated in the C for each operand): resolve the label (the base label
for a matrix), emit the address word with ARE b for an external (recording
the usage at instruction address + idx + 1) or c otherwise, and for a
matrix parse and validate the two index registers and emit their word.
Returns (error flag, words emitted, updated table). -/
def encodeLabelOrMatrix (operand : String) (mode : Char) (instAddr : Int) (idx : Nat)
    (tab : List Symbol) : Bool × List String × List Symbol :=
  if mode = 'c' ∧ matrix_label operand.data = [] then (true, [], tab)
  else
    let label_to_find := if mode = 'c' then String.mk (matrix_label operand.data) else operand
    match findSymbol tab label_to_find with
    | none => (true, [], tab)
    | some sym =>
      let are : Char := if sym.type = SymbolType.external then 'b' else 'c'
      let tab1 := if are = 'b' then addExternalUsageTab tab sym.name (instAddr + idx + 1) else tab
      let w1 := wordWithARE (convertToBase4 sym.address) are
      if mode = 'c' then
        match parseMatrixRegs operand.data with
        | none => (true, [w1], tab1)
        | some (r1, r2) =>
          if r1 < 0 ∨ r1 > 7 ∨ r2 < 0 ∨ r2 > 7 then (true, [w1], tab1)
          else (false, [w1, encode_matrix_registers r1 r2], tab1)
      else (false, [w1], tab1)

/-- Step 6 of encode_instruction_words (second_pass.c): emit the operand
words.  Two register operands share one word; otherwise operand 1 is
processed (immediate, source register with the register in the upper
digits, label or matrix), then operand 2 (immediate, destination register
in the lower digits, label or matrix).  Returns (error flag, words,
updated table). -/
def encodeOperands (inst : Instr) (op1 op2 : String) (src_mode : Char)
    (tab : List Symbol) : Bool × List String × List Symbol :=
  if inst.num_operands ≥ 1 then
    if src_mode = 'd' ∧ inst.num_operands = 2 ∧ get_addressing_mode_base4 op2 = 'd' then
      (false, [get_register_base4 op1 ++ get_register_base4 op2 ++ "a"], tab)
    else
      let step1 : Bool × List String × List Symbol :=
        if src_mode = 'a' then
          let value := atoiInt (op1.data.drop 1)
          if value < -512 ∨ value > 511 then (true, [], tab)
          else (false, [wordWithARE (convertToBase4 value) 'a'], tab)
        else if src_mode = 'd' then
          (false, [get_register_base4 op1 ++ "aaa"], tab)
        else if src_mode = 'b' ∨ src_mode = 'c' then
          encodeLabelOrMatrix op1 src_mode inst.address 0 tab
        else (false, [], tab)
      if step1.1 then (true, [], step1.2.2)
      else if inst.num_operands = 2 then
        let dst := get_addressing_mode_base4 op2
        let step2 : Bool × List String × List Symbol :=
          if dst = 'a' then
            let value := atoiInt (op2.data.drop 1)
            if value < -512 ∨ value > 511 then (true, [], step1.2.2)
            else (false, [wordWithARE (convertToBase4 value) 'a'], step1.2.2)
          else if dst = 'd' then
            (false, ["aa" ++ get_register_base4 op2 ++ "a"], step1.2.2)
          else if dst = 'b' ∨ dst = 'c' then
            encodeLabelOrMatrix op2 dst inst.address step1.2.1.length step1.2.2
          else (false, [], step1.2.2)
        if step2.1 then (true, [], step2.2.2)
        else (false, step1.2.1 ++ step2.2.1, step2.2.2)
      else (false, step1.2.1, step1.2.2)
  else (false, [], tab)

/-- Function encode_instruction_words from second_pass.c: reject an unknown
opcode, trim the operands, compute the addressing modes (the source slot is
filled from operand 1 whenever at least one operand is present, the
destination slot from operand 2 only when two are present), validate the
operands, build the opcode word opcode, source mode, destination mode and
ARE a, emit the operand words, and finally compare the generated word count
with the pass-1 length. -/
def encode_instruction_words (inst : Instr) (tab : List Symbol) : EncResult :=
  let opcode_base4 := get_opcode_base4 inst.opcode
  if opcode_base4 = "aaaa" then
    { err := true, machineWord := "", operandWords := [], symTab := tab }
  else
    let op1 := trim_whitespace inst.operand1
    let op2 := trim_whitespace inst.operand2
    let src_mode := if inst.num_operands ≥ 1 then get_addressing_mode_base4 op1 else 'a'
    let dest_mode := if inst.num_operands = 2 then get_addressing_mode_base4 op2 else 'a'
    if !validate_instruction_operands inst.opcode op1 op2 inst.num_operands then
      { err := true, machineWord := "", operandWords := [], symTab := tab }
    else
      let mw := opcode_base4 ++ String.mk [src_mode, dest_mode, 'a']
      let ops := encodeOperands inst op1 op2 src_mode tab
      if ops.1 then
        { err := true, machineWord := mw, operandWords := [], symTab := ops.2.2 }
      else
        { err := decide ((ops.2.1.length : Int) + 1 ≠ inst.instruction_length),
          machineWord := mw, operandWords := ops.2.1, symTab := ops.2.2 }

/-- The two loops of secondPass (second_pass.c): encode every instruction in
order (threading the symbol table and accumulating the error flag), then
flag any symbol still of type entry whose address is 0.  Returns the final
table and the error flag. -/
def secondPassFlag (insts : List Instr) (tab : List Symbol) : List Symbol × Bool :=
  let enc := insts.foldl
    (fun acc i =>
      let r := encode_instruction_words i acc.1
      (r.symTab, acc.2 || r.err))
    (tab, false)
  let entryErr := enc.1.any (fun s => decide (s.type = SymbolType.entry ∧ s.address = 0))
  (enc.1, enc.2 || entryErr)

/-- The directive branch of firstPass (first_pass.c) for a line of the form
LABEL: .extern NAME: any label prefix is first inserted as a data symbol at
the current DC (the insertion made for every directive), then the warning
is printed and NAME is inserted as an external symbol with address 0.
Returns the table and the error flag. -/
def firstPassExternLine (tab : List Symbol) (label : Option String) (externName : String)
    (dc : Int) : List Symbol × Bool :=
  match label with
  | some l =>
    let r1 := addSymbol tab l dc SymbolType.data
    if r1.2 then (r1.1, true)
    else addSymbol r1.1 externName 0 SymbolType.external
  | none => addSymbol tab externName 0 SymbolType.external

/-- A data item (assembler.h struct DataItem) as seen by the object-file
writer: the pass-1 offset address and the signed value. -/
structure DataItem where
  address : Int
  value : Int
deriving DecidableEq, Repr

/-- The per-instruction fields read by writeObjectFile: address, opcode word
and operand words. -/
structure ObInstr where
  address : Int
  machineWord : String
  operandWords : List String
deriving DecidableEq, Repr

/-- The lines written by writeObjectFile (output_files.c): the header line
with the two counts stripped of leading a digits and separated by one
space, then every instruction word (operand words at consecutive
addresses), then every data word at address + ICF + MEMORY_START. -/
def writeObjectFileLines (ICF DCF : Int) (dataList : List DataItem)
    (insts : List ObInstr) : List String :=
  let header := stripLeadingA (convertToBase4 ICF) ++ " " ++ stripLeadingA (convertToBase4 DCF)
  let instLines := (insts.map (fun i =>
      (convertToBase4 i.address ++ "\t" ++ i.machineWord) ::
        (i.operandWords.enum.map (fun p =>
          convertToBase4 (i.address + (p.1 : Int) + 1) ++ "\t" ++ p.2)))).flatten
  let dataLines := dataList.map (fun d =>
      convertToBase4 (d.address + ICF + MEMORY_START) ++ "\t" ++ convertToBase4 d.value)
  header :: (instLines ++ dataLines)

/-- The object-file call made by main (main.c line 167): the first argument
of writeObjectFile is final_ic - MEMORY_START, the length of the
instruction code, not the final address. -/
def mainObjectLines (final_ic final_dc : Int) (dataList : List DataItem)
    (insts : List ObInstr) : List String :=
  writeObjectFileLines (final_ic - MEMORY_START) final_dc dataList insts

/-- First space-delimited field of the first output line. -/
def headerFirstField (lines : List String) : String :=
  String.mk ((lines.headD "").data.takeWhile (fun c => c != ' '))

/-- The nine single-operand mnemonics (spec section 4.4). -/
def single_operand_opcodes : List String :=
  ["not", "clr", "inc", "dec", "jmp", "bne", "jsr", "red", "prn"]

/-- The register operand string for a register number below 8. -/
def regStr (x : Fin 8) : String := String.mk ['r', Char.ofNat (48 + x.val)]

theorem base4CharVal_base4Char : ∀ d : Nat, d < 4 → base4CharVal (base4Char d) = d := by
  decide

theorem base4_roundtrip_raw (v : Nat) (hv : v < 1024) :
    decodeBase4Raw (String.mk [base4Char (v / 256 % 4), base4Char (v / 64 % 4),
      base4Char (v / 16 % 4), base4Char (v / 4 % 4), base4Char (v % 4)]) = v := by
  have h0 := base4CharVal_base4Char (v / 256 % 4) (Nat.mod_lt _ (by norm_num))
  have h1 := base4CharVal_base4Char (v / 64 % 4) (Nat.mod_lt _ (by norm_num))
  have h2 := base4CharVal_base4Char (v / 16 % 4) (Nat.mod_lt _ (by norm_num))
  have h3 := base4CharVal_base4Char (v / 4 % 4) (Nat.mod_lt _ (by norm_num))
  have h4 := base4CharVal_base4Char (v % 4) (Nat.mod_lt _ (by norm_num))
  simp only [decodeBase4Raw, List.foldl, h0, h1, h2, h3, h4]
  omega

/-- C7: for every integer n in [-512, 511], rendering n with convertToBase4
(which masks to 10 bits) and decoding the rendering back with sign-extension
from 10 bits yields n again. -/
theorem c7_theorem (n : Int) (h1 : -512 ≤ n) (h2 : n ≤ 511) :
    decodeBase4 (convertToBase4 n) = n := by
  have hvlt : (n % 1024).toNat < 1024 := by omega
  simp only [convertToBase4, decodeBase4]
  rw [base4_roundtrip_raw _ hvlt]
  simp only [signExtend10]
  split <;> omega

/-- Witness for C7 at the concrete input -5. -/
theorem c7_witness :
    (-512 : Int) ≤ -5 ∧ (-5 : Int) ≤ 511 ∧ decodeBase4 (convertToBase4 (-5)) = -5 :=
  ⟨by norm_num, by norm_num, c7_theorem (-5) (by norm_num) (by norm_num)⟩

/-- C10: a rejected addSymbol call (reserved name, invalid label syntax, or
a conflict-rule violation, i.e. any call that raises the error flag) leaves
the symbol table completely unchanged. -/
theorem c10_theorem (tab : List Symbol) (name : String) (address : Int) (ty : SymbolType)
    (h : (addSymbol tab name address ty).2 = true) :
    (addSymbol tab name address ty).1 = tab := by
  revert h
  unfold addSymbol
  repeat' split
  all_goals intro h
  all_goals first | rfl | simp at h

/-- Witness for C10: inserting the reserved opcode name mov is rejected and
the empty table stays empty. -/
theorem c10_witness :
    (addSymbol [] "mov" 100 SymbolType.code).2 = true
    ∧ (addSymbol [] "mov" 100 SymbolType.code).1 = [] :=
  ⟨by decide, c10_theorem [] "mov" 100 SymbolType.code (by decide)⟩

/-- C9: when a unit's error flag is set by the end of assembly, none of the
ob, ent or ext artefacts are produced for that unit. -/
theorem c9_theorem (g_has_error : Bool) (tab : List Symbol) (h : g_has_error = true) :
    mainOutputPhase g_has_error tab = [] := by
  simp [mainOutputPhase, h]

/-- Witness for C9: even with a writable entry and a used external in the
table, a set error flag suppresses all three artefacts. -/
theorem c9_witness :
    mainOutputPhase true
      [⟨"A", 150, SymbolType.entry, []⟩, ⟨"B", 0, SymbolType.external, [101]⟩] = [] :=
  c9_theorem true
    [⟨"A", 150, SymbolType.entry, []⟩, ⟨"B", 0, SymbolType.external, [101]⟩] rfl

/-- C1 counterexample: for the single-operand instruction inc r1 the encoded
opcode word is bddaa: the operand's mode digit d sits in the third digit
(the source slot) and a in the fourth digit (the destination slot), not the
other way round as the claim states. -/
theorem c1_counterexample :
    (encode_instruction_words ⟨100, "inc", 1, "r1", "", 2⟩ []).machineWord = "bddaa"
    ∧ ¬ (((encode_instruction_words ⟨100, "inc", 1, "r1", "", 2⟩ []).machineWord.data[3]?
            = some (get_addressing_mode_base4 "r1"))
         ∧ ((encode_instruction_words ⟨100, "inc", 1, "r1", "", 2⟩ []).machineWord.data[2]?
            = some 'a')) := by
  decide

/-- C2 counterexample: for a unit with one instruction word (final IC 101,
final DC 0) the header's first field is b (the rendering of 1), not the
rendering bcbb of the final instruction counter 101 as the claim states. -/
theorem c2_counterexample :
    headerFirstField (mainObjectLines 101 0 [] [⟨100, "ddaaa", []⟩]) = "b"
    ∧ stripLeadingA (convertToBase4 101) = "bcbb"
    ∧ headerFirstField (mainObjectLines 101 0 [] [⟨100, "ddaaa", []⟩])
        ≠ stripLeadingA (convertToBase4 101) := by
  decide

/-- C3 counterexample: recording usages of the external FOO at address 101
and then at address 103 (source order) makes writeExternalsFile print the
line for 103 before the line for 101, the reverse of the recording order
the claim states. -/
theorem c3_counterexample :
    writeExternalsLines [recordUsages ⟨"FOO", 0, SymbolType.external, []⟩ [101, 103]]
      = ["FOO abcbd", "FOO abcbb"]
    ∧ writeExternalsLines [recordUsages ⟨"FOO", 0, SymbolType.external, []⟩ [101, 103]]
      ≠ ["FOO abcbb", "FOO abcbd"] := by
  decide

theorem recordUsages_external (nm : String) (addr : Int) (recs us : List Int) :
    recordUsages ⟨nm, addr, SymbolType.external, us⟩ recs
      = ⟨nm, addr, SymbolType.external, recs.reverse ++ us⟩ := by
  induction recs generalizing us with
  | nil => rfl
  | cons a rest ih =>
    have step : recordUsages (⟨nm, addr, SymbolType.external, us⟩ : Symbol) (a :: rest)
        = recordUsages ⟨nm, addr, SymbolType.external, a :: us⟩ rest := by
      simp [recordUsages, addExternalUsage]
    rw [step, ih]
    simp

/-- C3 amended: for every external symbol the ext lines appear in the
reverse of the order the usages were recorded during the second pass,
because addExternalUsage prepends each usage to the head of the list and
writeExternalsFile walks the list from the head. -/
theorem c3_amended (nm : String) (addr : Int) (recs : List Int) :
    writeExternalsLines [recordUsages ⟨nm, addr, SymbolType.external, []⟩ recs]
      = recs.reverse.map (fun a => nm ++ " " ++ convertToBase4 a) := by
  rw [recordUsages_external]
  simp [writeExternalsLines]

/-- C4 counterexample: encoding the matrix operand M1 with row register r2
and column register r7 through the full second-pass encoder emits cabbc as
the second operand word, whose value 534 is not (2 shifted left 6) plus
(7 shifted left 2) = 156 as the claim states. -/
theorem c4_counterexample :
    (encode_instruction_words ⟨100, "mov", 2, "M1[r2][r7]", "r1", 4⟩
        [⟨"M1", 105, SymbolType.data, []⟩]).operandWords[1]? = some "cabbc"
    ∧ decodeBase4Raw "cabbc" ≠ 2 * 64 + 7 * 4 := by
  decide

/-- C4 amended: for every register pair other than the two hard-coded
special cases (2,7) and (3,3), the matrix register word has the row
register in bits 9-6 and the column register in bits 5-2 with ARE digit a;
the special cases return the fixed strings cabbc and adada. -/
theorem c4_amended (row col : Fin 8)
    (h1 : ¬(row.val = 2 ∧ col.val = 7)) (h2 : ¬(row.val = 3 ∧ col.val = 3)) :
    decodeBase4Raw (encode_matrix_registers (row.val : Int) (col.val : Int))
        = row.val * 64 + col.val * 4
    ∧ (encode_matrix_registers (row.val : Int) (col.val : Int)).data[4]? = some 'a' := by
  revert h1 h2
  revert row col
  decide

/-- Witness for C4 at the register pair (1,4). -/
theorem c4_witness :
    ¬(((1 : Fin 8)).val = 2 ∧ ((4 : Fin 8)).val = 7)
    ∧ ¬(((1 : Fin 8)).val = 3 ∧ ((4 : Fin 8)).val = 3)
    ∧ (decodeBase4Raw (encode_matrix_registers (((1 : Fin 8)).val : Int) (((4 : Fin 8)).val : Int))
          = ((1 : Fin 8)).val * 64 + ((4 : Fin 8)).val * 4
       ∧ (encode_matrix_registers (((1 : Fin 8)).val : Int) (((4 : Fin 8)).val : Int)).data[4]?
          = some 'a') :=
  ⟨by decide, by decide, c4_amended 1 4 (by decide) (by decide)⟩

/-- C5: the unit consisting of the single instruction stop followed by the
directive .entry FOO, where FOO is never defined locally, ends the second
pass with the error flag clear, because updateDataSymbolsAddresses added
the final instruction counter 101 to the placeholder address 0, so the
second-pass check for entry symbols with address 0 never fires; the claim
(and the second-pass comment) says this undefined entry must be reported. -/
theorem c5_bug_eval :
    (secondPassFlag [⟨100, "stop", 0, "", "", 1⟩]
        (updateDataSymbolsAddresses (addSymbol [] "FOO" 0 SymbolType.entry).1 101)).2 = false
    ∧ (secondPassFlag [⟨100, "stop", 0, "", "", 1⟩]
        (updateDataSymbolsAddresses (addSymbol [] "FOO" 0 SymbolType.entry).1 101)).1
      = [⟨"FOO", 101, SymbolType.entry, []⟩] := by
  decide

/-- C8: processing the line L: .extern FOO on an empty table inserts the
label L as a data symbol (at the current DC) in addition to the external
FOO, even though the printed warning says the label is ignored; the claim
says no symbol named L is added. -/
theorem c8_bug_eval :
    firstPassExternLine [] (some "L") "FOO" 0
      = ([⟨"FOO", 0, SymbolType.external, []⟩, ⟨"L", 0, SymbolType.data, []⟩], false)
    ∧ (findSymbol (firstPassExternLine [] (some "L") "FOO" 0).1 "L").isSome = true := by
  decide

theorem base4Char_ne_space (d : Nat) : base4Char d ≠ ' ' := by
  unfold base4Char
  repeat' split
  all_goals decide

theorem convertToBase4_no_space (n : Int) : ∀ c ∈ (convertToBase4 n).data, c ≠ ' ' := by
  intro c hc
  simp only [convertToBase4, List.mem_cons, List.not_mem_nil, or_false] at hc
  rcases hc with h | h | h | h | h <;> (subst h; exact base4Char_ne_space _)

theorem stripACore_subset : ∀ cs : List Char, ∀ c ∈ stripACore cs, c ∈ cs := by
  intro cs
  induction cs with
  | nil => intro c hc; simp [stripACore] at hc
  | cons a rest ih =>
    intro c hc
    unfold stripACore at hc
    split at hc
    · exact List.mem_cons_of_mem _ (ih c hc)
    · exact hc

theorem takeWhile_append_space (l1 l2 : List Char) (h : ∀ c ∈ l1, c ≠ ' ') :
    (l1 ++ ' ' :: l2).takeWhile (fun c => c != ' ') = l1 := by
  induction l1 with
  | nil => simp [List.takeWhile]
  | cons a rest ih =>
    have ha : (a != ' ') = true := by
      have := h a (List.mem_cons_self a rest)
      simpa using this
    simp only [List.cons_append, List.takeWhile_cons, ha, if_true]
    rw [ih (fun c hc => h c (List.mem_cons_of_mem _ hc))]

/-- C2 amended: the first field of the object-file header renders
final_ic - MEMORY_START, the number of instruction words, not the final
instruction counter itself (so a unit with one instruction word renders 1,
the digit b). -/
theorem c2_amended (final_ic final_dc : Int) (dataList : List DataItem)
    (insts : List ObInstr) :
    headerFirstField (mainObjectLines final_ic final_dc dataList insts)
      = stripLeadingA (convertToBase4 (final_ic - MEMORY_START)) := by
  have hns : ∀ c ∈ (stripLeadingA (convertToBase4 (final_ic - MEMORY_START))).data, c ≠ ' ' := by
    intro c hc
    exact convertToBase4_no_space _ c (stripACore_subset _ c hc)
  unfold mainObjectLines writeObjectFileLines headerFirstField
  simp only [List.headD_cons, String.data_append]
  rw [List.append_assoc, List.singleton_append]
  rw [takeWhile_append_space _ _ hns]

/-- C1 amended: for every single-operand instruction that passes operand
validation, the encoded opcode word places the operand's addressing-mode
digit in the source-mode slot (the third base-4 digit) and the digit a in
the destination-mode slot (the fourth digit), because the encoder fills the
source slot from operand 1 whenever at least one operand is present. -/
theorem c1_amended (opc : String) (hm : opc ∈ single_operand_opcodes)
    (s : String) (addr len : Int) (tab : List Symbol)
    (hv : validate_instruction_operands opc (trim_whitespace s) "" 1 = true) :
    (encode_instruction_words ⟨addr, opc, 1, s, "", len⟩ tab).machineWord
      = get_opcode_base4 opc
        ++ String.mk [get_addressing_mode_base4 (trim_whitespace s), 'a', 'a'] := by
  have hop : ¬ (get_opcode_base4 opc = "aaaa") := by
    fin_cases hm <;> decide
  have h0 : trim_whitespace "" = "" := rfl
  unfold encode_instruction_words
  simp only [h0, hv, hop, Bool.not_true, if_false, Bool.false_eq_true, ite_false,
    Nat.one_le_iff_ne_zero, ne_eq, one_ne_zero, not_false_eq_true, ite_true,
    OfNat.one_ne_ofNat]
  split <;> rfl

/-- Witness for C1 at the instruction inc r1. -/
theorem c1_witness :
    "inc" ∈ single_operand_opcodes
    ∧ validate_instruction_operands "inc" (trim_whitespace "r1") "" 1 = true
    ∧ (encode_instruction_words ⟨100, "inc", 1, "r1", "", 2⟩ []).machineWord
        = get_opcode_base4 "inc"
          ++ String.mk [get_addressing_mode_base4 (trim_whitespace "r1"), 'a', 'a'] :=
  ⟨by decide, by decide, c1_amended "inc" (by decide) "r1" 100 2 [] (by decide)⟩

theorem encode_two_reg (inst : Instr) (tab : List Symbol)
    (h1 : inst.num_operands = 2)
    (hop : ¬ (get_opcode_base4 inst.opcode = "aaaa"))
    (hv : validate_instruction_operands inst.opcode (trim_whitespace inst.operand1)
            (trim_whitespace inst.operand2) inst.num_operands = true)
    (hm1 : get_addressing_mode_base4 (trim_whitespace inst.operand1) = 'd')
    (hm2 : get_addressing_mode_base4 (trim_whitespace inst.operand2) = 'd')
    (hlen : inst.instruction_length = 2) :
    encode_instruction_words inst tab
      = { err := false,
          machineWord := get_opcode_base4 inst.opcode ++ String.mk ['d', 'd', 'a'],
          operandWords := [get_register_base4 (trim_whitespace inst.operand1)
            ++ get_register_base4 (trim_whitespace inst.operand2) ++ "a"],
          symTab := tab } := by
  rw [h1] at hv
  unfold encode_instruction_words encodeOperands
  simp only [h1, hv, hop, hm1, hm2, hlen, Bool.not_true, if_false, Bool.false_eq_true,
    ite_false, ite_true, and_self, and_true, true_and, not_false_eq_true]
  norm_num

/-- C6: for every two-operand instruction whose operands are both registers
the pass-1 length is exactly 2, and for each such instruction that is
encoded (mov, cmp, add, sub; a lea with a register source is rejected by
validation before encoding) the single shared operand word carries the
source register number in bits 9-6, the destination register number in
bits 5-2, and the ARE digit a. -/
theorem c6_theorem (opc : String) (x y : Fin 8) (addr : Int) (tab : List Symbol)
    (hm : opc ∈ ["mov", "cmp", "add", "sub", "lea"]) :
    calculate_instruction_length opc (regStr x) (regStr y) = 2
    ∧ (opc ≠ "lea" →
        (encode_instruction_words ⟨addr, opc, 2, regStr x, regStr y, 2⟩ tab).err = false
        ∧ (encode_instruction_words ⟨addr, opc, 2, regStr x, regStr y, 2⟩ tab).operandWords
            = [get_register_base4 (regStr x) ++ get_register_base4 (regStr y) ++ "a"]
        ∧ decodeBase4Raw (get_register_base4 (regStr x) ++ get_register_base4 (regStr y) ++ "a")
            = x.val * 64 + y.val * 4
        ∧ (get_register_base4 (regStr x) ++ get_register_base4 (regStr y) ++ "a").data[4]?
            = some 'a') := by
  constructor
  · fin_cases hm <;> (revert x y; decide)
  · intro hlea
    have htrim1 : trim_whitespace (regStr x) = regStr x := by revert x; decide
    have htrim2 : trim_whitespace (regStr y) = regStr y := by revert y; decide
    have hmode1 : get_addressing_mode_base4 (regStr x) = 'd' := by revert x; decide
    have hmode2 : get_addressing_mode_base4 (regStr y) = 'd' := by revert y; decide
    have hval : validate_instruction_operands opc (regStr x) (regStr y) 2 = true := by
      clear htrim1 htrim2 hmode1 hmode2
      fin_cases hm
      case _ => revert x y; decide
      case _ => revert x y; decide
      case _ => revert x y; decide
      case _ => revert x y; decide
      case _ => exact absurd rfl hlea
    have hop : ¬ (get_opcode_base4 opc = "aaaa") := by
      clear htrim1 htrim2 hmode1 hmode2 hval
      fin_cases hm <;> decide
    have henc := encode_two_reg ⟨addr, opc, 2, regStr x, regStr y, 2⟩ tab rfl hop
      (by simpa [htrim1, htrim2] using hval)
      (by rw [show (⟨addr, opc, 2, regStr x, regStr y, 2⟩ : Instr).operand1 = regStr x from rfl,
              htrim1, hmode1])
      (by rw [show (⟨addr, opc, 2, regStr x, regStr y, 2⟩ : Instr).operand2 = regStr y from rfl,
              htrim2, hmode2]) rfl
    rw [show (⟨addr, opc, 2, regStr x, regStr y, 2⟩ : Instr).operand1 = regStr x from rfl,
        show (⟨addr, opc, 2, regStr x, regStr y, 2⟩ : Instr).operand2 = regStr y from rfl,
        htrim1, htrim2] at henc
    refine ⟨by rw [henc], by rw [henc], ?_, ?_⟩
    · clear htrim1 htrim2 hmode1 hmode2 hval hop henc hlea hm
      revert x y
      decide
    · clear htrim1 htrim2 hmode1 hmode2 hval hop henc hlea hm
      revert x y
      decide

/-- Witness for C6 at the instruction mov r3, r5. -/
theorem c6_witness :
    ("mov" ∈ ["mov", "cmp", "add", "sub", "lea"])
    ∧ (calculate_instruction_length "mov" (regStr 3) (regStr 5) = 2
       ∧ ("mov" ≠ "lea" →
          (encode_instruction_words ⟨100, "mov", 2, regStr 3, regStr 5, 2⟩ []).err = false
          ∧ (encode_instruction_words ⟨100, "mov", 2, regStr 3, regStr 5, 2⟩ []).operandWords
              = [get_register_base4 (regStr 3) ++ get_register_base4 (regStr 5) ++ "a"]
          ∧ decodeBase4Raw (get_register_base4 (regStr 3) ++ get_register_base4 (regStr 5) ++ "a")
              = (3 : Fin 8).val * 64 + (5 : Fin 8).val * 4
          ∧ (get_register_base4 (regStr 3) ++ get_register_base4 (regStr 5) ++ "a").data[4]?
              = some 'a')) :=
  ⟨by decide, c6_theorem "mov" 3 5 100 [] (by decide)⟩

end Assembler
